import Mathlib

/-
Shallow embedding of the tag extractor in `main.go` (package main of
hmgle/gofwc), together with the earlier source variant kept in the
repository as an unnamed file (here called the V0 variant).

Modelling conventions:
* `go/ast` type expressions become the inductive `TypeExpr`.  A Go
  `*ast.FieldList` pointer that may be nil becomes `FieldList`
  (`FieldList.nilFL` is the nil pointer, `FieldList.mk` a present list);
  the list of `*ast.Field` entries becomes `Fields`, each field carrying
  its name list and its type expression.
* The Go switch in `getType` has no default clause, so any node kind
  outside the eight handled cases leaves the named result `paramType` at
  its zero value `""`.  The unhandled kinds that can occur in type
  position are modelled by the constructors `structT` (struct types),
  `ellipsisT` (variadic `...T`) and `otherNode` (any further kind).
* The boolean parameter `star` of `getType` follows the source exactly:
  `star = true` keeps a pointer marker, `star = false` drops it.  (The
  spec's `dereferencePointers` flag is the negation of `star`.)
* File positions: `createTag` in Go resolves `token.Pos` values to line
  numbers through the parser's file set.  The embedding carries the
  already-resolved line numbers on each declaration and the file name on
  the parser state, which is all `createTag` extracts from the file set.
-/

mutual

inductive TypeExpr where
  | ident (name : String)
  | starE (x : TypeExpr)
  | selector (x : TypeExpr) (sel : TypeExpr)
  | arrayT (len : Option String) (elt : TypeExpr)
  | funcT (params : FieldList) (results : FieldList)
  | mapT (key : TypeExpr) (value : TypeExpr)
  | chanT (value : TypeExpr)
  | interfaceT
  | structT
  | ellipsisT (elt : TypeExpr)
  | otherNode

inductive FieldList where
  | nilFL
  | mk (list : Fields)

inductive Fields where
  | nil
  | cons (names : List String) (type : TypeExpr) (rest : Fields)

end

/-- Number of field groups: `len(fieldList.List)` in Go. -/
def Fields.groupCount : Fields → Nat
  | .nil => 0
  | .cons _ _ rest => 1 + rest.groupCount

def numFieldsList : Fields → Nat
  | .nil => 0
  | .cons names _ rest =>
      (if names.length = 0 then 1 else names.length) + numFieldsList rest

/-- The `(*ast.FieldList).NumFields` method from `go/ast`: sum over the
field groups of the number of names, an anonymous group counting as 1. -/
def numFields : FieldList → Nat
  | .nilFL => 0
  | .mk fs => numFieldsList fs

mutual

/-- Embedding of `getType` (main.go lines 113-148).  `star = true` keeps
pointer markers (`"*" ++ _`), `star = false` drops them.  The switch has
no default, so unhandled node kinds return the zero value `""`. -/
def getType : TypeExpr → Bool → String
  | .ident name, _ => name
  | .starE x, star =>
      if star then "*" ++ getType x star else getType x star
  | .selector x sel, star => getType x star ++ "." ++ getType sel star
  | .arrayT len elt, star =>
      match len with
      | some l => "[" ++ l ++ "]" ++ getType elt star
      | none => "[]" ++ getType elt star
  | .funcT params results, _ =>
      let fparams := getTypes params true
      let fresult := getTypes results false
      if fresult.length > 0 then
        "func(" ++ fparams ++ ") " ++ fresult
      else
        "func(" ++ fparams ++ ")"
  | .mapT key value, _ =>
      "map[" ++ getType key true ++ "]" ++ getType value true
  | .chanT value, _ => "chan " ++ getType value true
  | .interfaceT, _ => "interface\x7b\x7d"
  | .structT, _ => ""
  | .ellipsisT _, _ => ""
  | .otherNode, _ => ""

/-- Embedding of `getTypes` (main.go lines 152-188): a nil field list
renders as `""`, otherwise the per-field strings are joined with `", "`
(`strings.Join(types, ", ")`). -/
def getTypes : FieldList → Bool → String
  | .nilFL, _ => ""
  | .mk fs, includeNames => String.intercalate ", " (fieldStrings fs includeNames)

/-- The loop body of `getTypes`: the rendered string of each field group,
in order.  For a named group the type is rendered once with names joined
by `", "` when `includeNames`, and with `includeNames = false` a group of
n > 1 names repeats `t ++ ", "` n times and drops the trailing two
characters (`strings.Repeat` then `t[:len(t)-2]`; the suffix `", "` is
ASCII, so dropping two characters is dropping two bytes). -/
def fieldStrings : Fields → Bool → List String
  | .nil, _ => []
  | .cons names type rest, includeNames =>
      (if names.length > 0 then
        let t := getType type true
        if includeNames then
          String.intercalate ", " names ++ " " ++ t
        else
          if names.length > 1 then
            (String.join (List.replicate names.length (t ++ ", "))).dropRight 2
          else
            t
      else
        getType type true) :: fieldStrings rest includeNames

end

example : getType (.ident "int") true = "int" := by rfl
example : getType (.starE (.ident "T")) false = "T" := by rfl
example : getType (.mapT (.ident "string") (.starE (.ident "Widget"))) false
    = "map[string]*Widget" := by rfl

/-- The `Tag` struct of main.go (fields Name, File, Start, End, Type; the
field `Type` is renamed `tagType` because `Type` is reserved in Lean, and
Start/End are `startLine`/`endLine`). -/
structure Tag where
  name : String
  file : String
  startLine : String
  endLine : String
  tagType : String
  deriving DecidableEq

/-- Tag type constant `Method = "method"`. -/
def Method : String := "method"

/-- Tag type constant `Function = "function"`. -/
def Function : String := "function"

/-- The `tagParser` struct: the `fset` field is represented by the one
datum `createTag` draws from it, the scanned file's name; `tags` and
`types` are as in the source. -/
structure tagParser where
  filename : String
  tags : List Tag
  types : List String
  deriving DecidableEq

/-- Embedding of `createTag` (main.go lines 72-81).  `start`/`stop` are
the line numbers that `p.fset.Position` resolves for the declaration's
positions, and `p.filename` is `p.fset.File(start).Name()`;
`strconv.Itoa` is `toString`. -/
def createTag (p : tagParser) (name : String) (start stop : Nat)
    (tagType : String) : Tag :=
  { name := name
    file := p.filename
    startLine := toString start
    endLine := toString stop
    tagType := tagType }

/-- Embedding of `belongsToReceiver` (main.go lines 88-111).  Returns the
Go pair `(name string, ok bool)`.  The guard `types == nil ||
types.NumFields() == 0` is the first two cases; then the first field
group's name count is tested, the first result type is rendered with
`star = false` (pointer markers dropped), and the rendered name is looked
up in `p.types` by the `for ... range` loop (first hit returned). -/
def belongsToReceiver (p : tagParser) (types : FieldList) : String × Bool :=
  match types with
  | .nilFL => ("", false)
  | .mk fs =>
    if numFields (.mk fs) = 0 then ("", false)
    else
      match fs with
      | .nil => ("", false)
      | .cons names type _ =>
        if names.length > 1 then ("", false)
        else
          let t := getType type false
          match p.types.find? (fun knownType => t == knownType) with
          | some knownType => (knownType, true)
          | none => ("", false)

/-- An `*ast.FuncDecl`: name, receiver field list (`Recv`, possibly nil),
the `Type.Params` and `Type.Results` field lists, and the line numbers of
`Pos()` and `End()`. -/
structure FuncDecl where
  name : String
  recv : FieldList
  params : FieldList
  results : FieldList
  pos : Nat
  endPos : Nat

/-- A top-level declaration of the file (`f.Decls` entry): either an
`*ast.FuncDecl`, or any other declaration (a `GenDecl`: type, var, const
or import declarations).  A type declaration's introduced type names are
recorded on the `genDecl` constructor so that statements about them can
be made; `parseDeclarations` matches only `*ast.FuncDecl` and never
reads them. -/
inductive Decl where
  | funcDecl (f : FuncDecl)
  | genDecl (typeNames : List String)

/-- The condition `f.Recv != nil && len(f.Recv.List) > 0` of parseFunc. -/
def hasRecvList : FieldList → Bool
  | .nilFL => false
  | .mk fs => fs.groupCount != 0

/-- Embedding of `parseFunc` (main.go lines 58-70): build the tag with
type `Function`, switch it to `Method` when the receiver list is
non-empty, otherwise re-assign `Function` when `belongsToReceiver`
reports ok, and append the tag to `p.tags`. -/
def parseFunc (p : tagParser) (f : FuncDecl) : tagParser :=
  let tag := createTag p f.name f.pos f.endPos Function
  let tag :=
    if hasRecvList f.recv then
      { tag with tagType := Method }
    else if (belongsToReceiver p f.results).2 then
      { tag with tagType := Function }
    else
      tag
  { p with tags := p.tags ++ [tag] }

/-- Embedding of `parseDeclarations` (main.go lines 50-56): fold over the
file's declarations in order, handling exactly the `*ast.FuncDecl` ones. -/
def parseDeclarations (p : tagParser) : List Decl → tagParser
  | [] => p
  | .funcDecl f :: rest => parseDeclarations (parseFunc p f) rest
  | .genDecl _ :: rest => parseDeclarations p rest

/-- A source file as handed to `Parse`: its name and the outcome of
`parser.ParseFile` on its text — either a parse error or the file's
top-level declaration list. -/
structure SourceFile where
  filename : String
  parsed : Except String (List Decl)

/-- Embedding of `Parse` (main.go lines 34-48): fresh parser state with
empty `tags` and empty `types`; a parse error is returned as-is with no
tags, otherwise the declarations are scanned and `p.tags` returned. -/
def Parse (file : SourceFile) : Except String (List Tag) :=
  match file.parsed with
  | .error err => .error err
  | .ok f =>
      let p : tagParser :=
        { filename := file.filename, tags := [], types := [] }
      .ok (parseDeclarations p f).tags

/-- Embedding of the aggregation loop of `main` (main.go lines 196-203):
starting from `tags := []`, each file is parsed; a file whose `Parse`
errors is skipped (`continue`) and the others' tags are appended in
order. -/
def mainTags (files : List SourceFile) : List Tag :=
  files.foldl
    (fun tags file =>
      match Parse file with
      | .error _ => tags
      | .ok ts => tags ++ ts)
    []

/-
The earlier source variant (the repository's unnamed file, part_000).
Its `Tag`, `tagParser`, `createTag`, `parseDeclarations`, `Parse` and
`main` are textually identical to main.go's, so they are shared; only
`parseFunc` differs: it has no `belongsToReceiver` branch, and inside the
receiver branch it logs the receiver types and names with `log.Println`
— output to stderr with no effect on the parser state, hence absent from
the embedding.
-/

/-- Embedding of the V0 `parseFunc` (part_000 lines 58-72): the tag is
built with type `Function` and switched to `Method` when the receiver
list is non-empty; there is no return-type heuristic. -/
def parseFuncV0 (p : tagParser) (f : FuncDecl) : tagParser :=
  let tag := createTag p f.name f.pos f.endPos Function
  let tag :=
    if hasRecvList f.recv then
      { tag with tagType := Method }
    else
      tag
  { p with tags := p.tags ++ [tag] }

/-- The V0 `parseDeclarations` (part_000 lines 50-56), identical to
main.go's but calling the V0 `parseFunc`. -/
def parseDeclarationsV0 (p : tagParser) : List Decl → tagParser
  | [] => p
  | .funcDecl f :: rest => parseDeclarationsV0 (parseFuncV0 p f) rest
  | .genDecl _ :: rest => parseDeclarationsV0 p rest

/-- The V0 `Parse` (part_000 lines 34-48), identical to main.go's but
calling the V0 `parseDeclarations`. -/
def ParseV0 (file : SourceFile) : Except String (List Tag) :=
  match file.parsed with
  | .error err => .error err
  | .ok f =>
      let p : tagParser :=
        { filename := file.filename, tags := [], types := [] }
      .ok (parseDeclarationsV0 p f).tags

/-
Helper definitions used to state the theorems.
-/

/-- The single tag `parseFunc` appends for a declaration, as a function
of the parser state (it reads only `p.filename` and `p.types`). -/
def declTag (p : tagParser) (f : FuncDecl) : Tag :=
  let tag := createTag p f.name f.pos f.endPos Function
  if hasRecvList f.recv then
    { tag with tagType := Method }
  else if (belongsToReceiver p f.results).2 then
    { tag with tagType := Function }
  else
    tag

/-- The fresh parser state `Parse` builds for a file name. -/
def initParser (filename : String) : tagParser :=
  { filename := filename, tags := [], types := [] }

/-- The `*ast.FuncDecl` entries of a declaration list, in source order. -/
def funcDecls (decls : List Decl) : List FuncDecl :=
  decls.filterMap (fun d =>
    match d with
    | .funcDecl f => some f
    | .genDecl _ => none)

/-- Recursive restatement of the aggregation loop: the tags contributed
by each file in order, an erroring file contributing none. -/
def tagsOfFiles : List SourceFile → List Tag
  | [] => []
  | file :: rest =>
      (match Parse file with
       | .error _ => []
       | .ok ts => ts) ++ tagsOfFiles rest

/-
Concrete inputs used by witnesses, counterexamples and evaluations.
-/

/-- The declaration `func NewWidget() *Widget { ... }`: no receiver, one
anonymous result of type `*Widget`, spanning lines 5-7. -/
def newWidgetDecl : FuncDecl :=
  { name := "NewWidget"
    recv := .nilFL
    params := .mk .nil
    results := .mk (.cons [] (.starE (.ident "Widget")) .nil)
    pos := 5
    endPos := 7 }

/-- The file `type Widget struct{}` followed by `func NewWidget() *Widget`. -/
def widgetFile : SourceFile :=
  { filename := "widget.go"
    parsed := .ok [.genDecl ["Widget"], .funcDecl newWidgetDecl] }

/-- A method declaration `func (w *Widget) Name() string` on lines 9-11. -/
def widgetNameDecl : FuncDecl :=
  { name := "Name"
    recv := .mk (.cons ["w"] (.starE (.ident "Widget")) .nil)
    params := .mk .nil
    results := .mk (.cons [] (.ident "string") .nil)
    pos := 9
    endPos := 11 }

/-- A receiver-less declaration `func Pair() (a, b Widget)` whose first
result group declares two names. -/
def pairDecl : FuncDecl :=
  { name := "Pair"
    recv := .nilFL
    params := .mk .nil
    results := .mk (.cons ["a", "b"] (.ident "Widget") .nil)
    pos := 13
    endPos := 15 }

/-
General lemmas about the scan, shared by the claim theorems below.
-/

theorem parseFunc_spec (p : tagParser) (f : FuncDecl) :
    parseFunc p f = { p with tags := p.tags ++ [declTag p f] } := rfl

theorem parseFunc_types (p : tagParser) (f : FuncDecl) :
    (parseFunc p f).types = p.types := rfl

theorem declTag_of_parseFunc (p : tagParser) (f g : FuncDecl) :
    declTag (parseFunc p f) g = declTag p g := rfl

theorem parseDeclarations_types (decls : List Decl) :
    ∀ p : tagParser, (parseDeclarations p decls).types = p.types := by
  induction decls with
  | nil => intro p; rfl
  | cons d rest ih =>
    intro p
    cases d with
    | funcDecl f =>
      calc (parseDeclarations p (Decl.funcDecl f :: rest)).types
          = (parseDeclarations (parseFunc p f) rest).types := rfl
        _ = (parseFunc p f).types := ih (parseFunc p f)
        _ = p.types := rfl
    | genDecl ns => exact ih p

theorem parseDeclarations_tags (decls : List Decl) :
    ∀ p : tagParser,
      (parseDeclarations p decls).tags
        = p.tags ++ (funcDecls decls).map (declTag p) := by
  induction decls with
  | nil => intro p; simp [parseDeclarations, funcDecls]
  | cons d rest ih =>
    intro p
    cases d with
    | funcDecl f =>
      have h1 := ih (parseFunc p f)
      have h2 : declTag (parseFunc p f) = declTag p :=
        funext fun g => declTag_of_parseFunc p f g
      have h3 : funcDecls (Decl.funcDecl f :: rest) = f :: funcDecls rest := by
        simp [funcDecls]
      calc (parseDeclarations p (Decl.funcDecl f :: rest)).tags
          = (parseDeclarations (parseFunc p f) rest).tags := rfl
        _ = (parseFunc p f).tags ++ (funcDecls rest).map (declTag (parseFunc p f)) := h1
        _ = (p.tags ++ [declTag p f]) ++ (funcDecls rest).map (declTag p) := by
              rw [h2, parseFunc_spec]
        _ = p.tags ++ (funcDecls (Decl.funcDecl f :: rest)).map (declTag p) := by
              rw [h3]; simp
    | genDecl ns =>
      have h3 : funcDecls (Decl.genDecl ns :: rest) = funcDecls rest := by
        simp [funcDecls]
      calc (parseDeclarations p (Decl.genDecl ns :: rest)).tags
          = (parseDeclarations p rest).tags := rfl
        _ = p.tags ++ (funcDecls rest).map (declTag p) := ih p
        _ = p.tags ++ (funcDecls (Decl.genDecl ns :: rest)).map (declTag p) := by
              rw [h3]

theorem mainTags_eq_tagsOfFiles (files : List SourceFile) :
    mainTags files = tagsOfFiles files := by
  have key : ∀ (fs : List SourceFile) (acc : List Tag),
      fs.foldl
        (fun tags file =>
          match Parse file with
          | .error _ => tags
          | .ok ts => tags ++ ts)
        acc
      = acc ++ tagsOfFiles fs := by
    intro fs
    induction fs with
    | nil => intro acc; simp [tagsOfFiles]
    | cons file rest ih =>
      intro acc
      simp only [List.foldl_cons, tagsOfFiles]
      cases h : Parse file with
      | error e => simp [h, ih]
      | ok ts => simp [h, ih, List.append_assoc]
  simpa [mainTags] using key files []

theorem tagsOfFiles_append (xs ys : List SourceFile) :
    tagsOfFiles (xs ++ ys) = tagsOfFiles xs ++ tagsOfFiles ys := by
  induction xs with
  | nil => simp [tagsOfFiles]
  | cons file rest ih => simp [tagsOfFiles, ih]

theorem parseFunc_eq_parseFuncV0 (p : tagParser) (f : FuncDecl) :
    parseFunc p f = parseFuncV0 p f := by
  show tagParser.mk p.filename (p.tags ++ [declTag p f]) p.types = _
  unfold parseFuncV0 declTag
  cases h : hasRecvList f.recv with
  | true => simp [h]
  | false =>
    simp only [h, Bool.false_eq_true, if_false]
    cases h2 : (belongsToReceiver p f.results).2 with
    | true => simp [h2, createTag]
    | false => simp [h2]

/-
Claim theorems.
-/

/-- Claim C4: for any source unit with N syntactically valid top-level
function or method declarations, scanning produces exactly N Tag records,
in exactly the order the declarations appear, with no reordering,
deduplication or sorting: the result of `Parse` is the map of the
per-declaration tag over the file's function declarations in source
order, and its length is the number of function declarations. -/
theorem c4_scan_emits_tags_in_declaration_order (fn : String) (decls : List Decl) :
    Parse { filename := fn, parsed := .ok decls }
      = .ok ((funcDecls decls).map (declTag (initParser fn)))
    ∧ ((funcDecls decls).map (declTag (initParser fn))).length
      = (funcDecls decls).length := by
  constructor
  · show Except.ok (parseDeclarations (initParser fn) decls).tags = _
    rw [parseDeclarations_tags decls (initParser fn)]
    simp [initParser]
  · exact List.length_map _ _

/-- Claim C5: every declaration whose explicit receiver clause is present
(`Recv != nil`) and contains at least one field group emits a Tag of kind
Method. -/
theorem c5_explicit_receiver_yields_method (p : tagParser) (f : FuncDecl)
    (fs : Fields) (hrecv : f.recv = .mk fs) (hn : 0 < fs.groupCount) :
    (parseFunc p f).tags
      = p.tags ++ [{ name := f.name
                     file := p.filename
                     startLine := toString f.pos
                     endLine := toString f.endPos
                     tagType := Method }] := by
  have h : hasRecvList f.recv = true := by
    rw [hrecv]
    simp [hasRecvList]
    omega
  unfold parseFunc
  simp [h, createTag]

/-- Witness for C5 at the concrete method `func (w *Widget) Name() string`. -/
theorem c5_explicit_receiver_yields_method_witness :
    (parseFunc (initParser "widget.go") widgetNameDecl).tags
      = (initParser "widget.go").tags
        ++ [{ name := "Name"
              file := "widget.go"
              startLine := "9"
              endLine := "11"
              tagType := Method }] :=
  c5_explicit_receiver_yields_method (initParser "widget.go") widgetNameDecl
    (.cons ["w"] (.starE (.ident "Widget")) .nil) rfl (by decide)

/-- Claim C6: for every receiver-less declaration whose first result
field group declares two or more names, `belongsToReceiver` reports no
owner and the emitted tag is of kind Function, whatever the registry
`p.types` contains. -/
theorem c6_multi_name_first_result_blocks_inference (p : tagParser)
    (f : FuncDecl) (names : List String) (ty : TypeExpr) (rest : Fields)
    (hrecv : f.recv = .nilFL)
    (hres : f.results = .mk (.cons names ty rest))
    (hn : 1 < names.length) :
    belongsToReceiver p f.results = ("", false)
    ∧ (parseFunc p f).tags
        = p.tags ++ [createTag p f.name f.pos f.endPos Function] := by
  have hb : belongsToReceiver p f.results = ("", false) := by
    rw [hres]
    unfold belongsToReceiver
    have hnz : numFields (.mk (.cons names ty rest)) ≠ 0 := by
      have h0 : ¬names.length = 0 := by omega
      simp [numFields, numFieldsList, h0]
    simp [hnz, hn]
  refine ⟨hb, ?_⟩
  have h : hasRecvList f.recv = false := by rw [hrecv]; rfl
  unfold parseFunc
  simp [h, hb]

/-- Witness for C6: `func Pair() (a, b Widget)` scanned with a registry
that does contain `Widget` still gets no inferred owner. -/
theorem c6_multi_name_first_result_blocks_inference_witness :
    belongsToReceiver (tagParser.mk "pair.go" [] ["Widget"]) pairDecl.results
      = ("", false)
    ∧ (parseFunc (tagParser.mk "pair.go" [] ["Widget"]) pairDecl).tags
        = [] ++ [createTag (tagParser.mk "pair.go" [] ["Widget"])
                    "Pair" 13 15 Function] :=
  c6_multi_name_first_result_blocks_inference
    (tagParser.mk "pair.go" [] ["Widget"]) pairDecl
    ["a", "b"] (.ident "Widget") .nil rfl rfl (by decide)

/-- Claim C8: the type tree `FuncType(params=[(["a","b"], int)],
results=[([], int)])` renders, under either outer flag, exactly as
`"func(a, b int) int"`: the named group joins its names with `", "`, adds
one space and one shared type token, and the non-empty result string is
appended after the closing parenthesis separated by one space. -/
theorem c8_func_type_rendering (b : Bool) :
    getType
      (.funcT (.mk (.cons ["a", "b"] (.ident "int") .nil))
              (.mk (.cons [] (.ident "int") .nil))) b
      = "func(a, b int) int" := by
  cases b <;> rfl

/-- Claim C10: `getType` is total; on each node kind outside the eight
handled cases (struct types, variadic ellipsis, any other node) it
returns the empty string, and the empty string propagates silently into
an enclosing composite rendering such as a slice. -/
theorem c10_gettype_total_on_unhandled_nodes (b : Bool) (e : TypeExpr) :
    getType .structT b = ""
    ∧ getType (.ellipsisT e) b = ""
    ∧ getType .otherNode b = ""
    ∧ getType (.arrayT none .structT) b = "[]" := by
  cases b <;> exact ⟨rfl, rfl, rfl, rfl⟩

/-- Claim C9: for every file that parses successfully, the variant with
the belongs-to-receiver heuristic (main.go) and the V0 variant without it
produce the same Tag sequence: the heuristic branch only re-assigns kind
Function, which is already the tag's initial value. -/
theorem c9_heuristic_variant_equals_v0 (fn : String) (decls : List Decl) :
    Parse { filename := fn, parsed := .ok decls }
      = ParseV0 { filename := fn, parsed := .ok decls } := by
  show Except.ok (parseDeclarations (initParser fn) decls).tags
      = Except.ok (parseDeclarationsV0 (initParser fn) decls).tags
  have key : ∀ (ds : List Decl) (p : tagParser),
      parseDeclarations p ds = parseDeclarationsV0 p ds := by
    intro ds
    induction ds with
    | nil => intro p; rfl
    | cons d rest ih =>
      intro p
      cases d with
      | funcDecl f =>
        show parseDeclarations (parseFunc p f) rest
            = parseDeclarationsV0 (parseFuncV0 p f) rest
        rw [← parseFunc_eq_parseFuncV0]
        exact ih (parseFunc p f)
      | genDecl ns => exact ih p
  rw [key]

/-- Claim C3 counterexample: a slice whose element is `*T`, formatted at
the outermost call with pointer markers dropped (`star = false`, the
spec's dereferencing flag enabled), renders as `"[]T"`, not `"[]*T"`:
`getType` passes its own flag through to the array element instead of
always preserving nested pointer markers. -/
theorem c3_slice_element_inherits_outer_flag_cex :
    getType (.arrayT none (.starE (.ident "T"))) false = "[]T"
    ∧ getType (.arrayT none (.starE (.ident "T"))) false ≠ "[]*T" := by
  exact ⟨rfl, by decide⟩

/-- Claim C3 amended: map key/value, channel element and function
parameter/result subexpressions are always formatted with pointer markers
preserved (`star = true`) regardless of the outer flag, but array (slice)
elements and nested pointers inherit the outer flag, so with dereferencing
enabled a slice element `*T` loses its marker and every pointer reached
through a pointer/array chain is stripped, not only the outermost one. -/
theorem c3_nested_pointer_flag_amended (b : Bool) (k v e : TypeExpr)
    (ps rs : FieldList) :
    getType (.mapT k v) b = getType (.mapT k v) true
    ∧ getType (.chanT v) b = getType (.chanT v) true
    ∧ getType (.funcT ps rs) b = getType (.funcT ps rs) true
    ∧ getType (.arrayT none e) b = "[]" ++ getType e b
    ∧ getType (.starE e) b
        = (if b then "*" ++ getType e b else getType e b) := by
  cases b <;> exact ⟨rfl, rfl, rfl, rfl, rfl⟩

/-- Claim C1 (evaluation at the failing input): scanning the file
`type Widget struct{}` followed by `func NewWidget() *Widget` emits the
bare tag `(NewWidget, widget.go, 5, 7, function)` with no receiver
information: the registry is still empty after the type declaration, so
`belongsToReceiver` misses, even though the first result does format to
`"Widget"` with the pointer marker stripped and a registry that did
contain `"Widget"` would have produced a hit. -/
theorem c1_widget_constructor_emits_bare_function_tag :
    Parse widgetFile
      = .ok [{ name := "NewWidget"
               file := "widget.go"
               startLine := "5"
               endLine := "7"
               tagType := Function }]
    ∧ (parseDeclarations (initParser "widget.go")
        [.genDecl ["Widget"], .funcDecl newWidgetDecl]).types = []
    ∧ belongsToReceiver (initParser "widget.go") newWidgetDecl.results
        = ("", false)
    ∧ getType (.starE (.ident "Widget")) false = "Widget"
    ∧ belongsToReceiver (tagParser.mk "widget.go" [] ["Widget"])
        newWidgetDecl.results = ("Widget", true) :=
  ⟨rfl, rfl, rfl, rfl, rfl⟩

/-- Claim C2 (evaluation): the scan never appends anything to the type
registry — `parseDeclarations` leaves `p.types` exactly as it found it
for every declaration list, and in particular after scanning the
declaration `type Widget struct{}` the registry is still empty. -/
theorem c2_type_registry_never_populated (p : tagParser) (decls : List Decl) :
    (parseDeclarations p decls).types = p.types
    ∧ (parseDeclarations (initParser "widget.go")
        [Decl.genDecl ["Widget"]]).types = [] :=
  ⟨parseDeclarations_types decls p, rfl⟩

/-- Claim C7: `Parse` on a file whose text fails to parse returns the
error and contributes no tags, and the driver loop skips that file and
continues with the rest: the aggregate tag list over any file sequence
containing the failing file equals the aggregate over the sequence with
the failing file removed. -/
theorem c7_parse_error_skipped_and_nonfatal (fn msg : String)
    (before after : List SourceFile) :
    Parse { filename := fn, parsed := .error msg } = .error msg
    ∧ mainTags (before ++ { filename := fn, parsed := .error msg } :: after)
        = mainTags (before ++ after) := by
  refine ⟨rfl, ?_⟩
  rw [mainTags_eq_tagsOfFiles, mainTags_eq_tagsOfFiles,
      tagsOfFiles_append, tagsOfFiles_append]
  show tagsOfFiles before
      ++ ((match Parse { filename := fn, parsed := .error msg } with
           | .error _ => []
           | .ok ts => ts) ++ tagsOfFiles after)
      = tagsOfFiles before ++ tagsOfFiles after
  rfl
